import Mathlib

/-!
Shallow embedding of the planning-grid core of `src/app/src/stores/planningStore.ts`
(the Pinia `usePlanningStore`), together with the data model from
`src/app/src/types/database.types.ts`.

Vertical database records (`SalesPlanDetail`) are pivoted into one row per
product with one `MonthData` cell per month (`transformToPivotedData`);
cell edits go through `updateCell`, which recomputes `stok_akhir` and records
a snapshot in `modifiedCells`; `saveChanges` turns the tracker into a batch
upsert payload; `discardChanges` re-derives the pivot from the last-fetched
records.

JavaScript `Map`s and plain objects keyed by strings are modelled as
insertion-ordered association lists with a `mapSet` operation matching
`Map.set` / keyed assignment (update in place, append when new).  Numeric
fields are modelled as `Int` (quantities are integers; `ito` is only ever
copied, never computed with).  Nullable strings are `Option String`, and
JavaScript truthiness on `string | null` values (`if (x)`) is modelled as
"not `none` and not the empty string".
-/

/-- The `product_category` enum: `'AMB' | 'MCB'`. -/
inductive ProductCategory
  | AMB
  | MCB
deriving Repr, DecidableEq

/-- Index giving the database sort order of categories (`order('kategori')`). -/
def catIdx : ProductCategory → Nat
  | .AMB => 0
  | .MCB => 1

/-- `MasterProduct` rows (fields the planning store reads). -/
structure MasterProduct where
  id : String
  kode_barang : String
  nama_produk : Option String
  tipe : String
  kategori : ProductCategory
  std_pallet : Int
  isi_dus : Int
deriving Repr, DecidableEq

/-- `SalesPlanDetail` view rows (fields the planning store reads). -/
structure SalesPlanDetail where
  id : String
  bulan_tahun : String
  bulan_label : String
  product_id : String
  region_kode : String
  target_jual : Int
  estimasi_jual : Int
  realisasi_sales : Int
  stok_awal : Int
  stok_akhir : Int
  order_qty : Int
  ito : Int
deriving Repr, DecidableEq

/-- `MonthData`: one month cell of the pivoted grid. -/
structure MonthData where
  id : Option String
  bulan_tahun : String
  bulan_label : String
  target_jual : Int
  estimasi_jual : Int
  realisasi_sales : Int
  stok_awal : Int
  stok_akhir : Int
  order_qty : Int
  ito : Int
  isModified : Bool
deriving Repr, DecidableEq

/-- `PivotedProductRow`: one product row of the grid; `months` is the
`Record<string, MonthData>` keyed by `"YYYY-MM"`, in key-insertion order. -/
structure PivotedProductRow where
  product_id : String
  kode_barang : String
  nama_produk : Option String
  tipe : String
  kategori : ProductCategory
  std_pallet : Int
  isi_dus : Int
  region_id : String
  region_kode : String
  months : List (String × MonthData)
deriving Repr, DecidableEq

/-- `PlanningFilter`. -/
structure PlanningFilter where
  region_id : Option String
  kategori : Option ProductCategory
  year : Nat
  startMonth : Nat
  endMonth : Nat
deriving Repr, DecidableEq

/-- JavaScript `Map.set` / keyed object assignment on an insertion-ordered
association list: replace in place when the key is present, append otherwise. -/
def mapSet {α : Type} (m : List (String × α)) (k : String) (v : α) :
    List (String × α) :=
  if (m.lookup k).isSome then
    m.map (fun kv => if kv.1 = k then (k, v) else kv)
  else
    m ++ [(k, v)]

/-- `m.toString().padStart(2, '0')` for month numbers. -/
def pad2 (m : Nat) : String :=
  if m < 10 then "0" ++ toString m else toString m

/-- The Indonesian month-name table from `monthColumns`. -/
def monthNames : List String :=
  ["Jan", "Feb", "Mar", "Apr", "Mei", "Jun",
   "Jul", "Agu", "Sep", "Okt", "Nov", "Des"]

/-- One entry of the `monthColumns` computed getter. -/
structure MonthColumn where
  key : String
  label : String
  date : String
deriving Repr, DecidableEq

/-- The `monthColumns` computed getter: one column per month
`startMonth ≤ m ≤ endMonth`, with key `"YYYY-MM"` and date `"YYYY-MM-01"`. -/
def monthColumns (f : PlanningFilter) : List MonthColumn :=
  (List.range' f.startMonth (f.endMonth + 1 - f.startMonth)).map (fun m =>
    { key := toString f.year ++ "-" ++ pad2 m
      label := (monthNames.getD (m - 1) "") ++ " " ++ toString f.year
      date := toString f.year ++ "-" ++ pad2 m ++ "-01" })

/-- `createEmptyMonthData`. -/
def createEmptyMonthData (date label : String) : MonthData :=
  { id := none
    bulan_tahun := date
    bulan_label := label
    target_jual := 0
    estimasi_jual := 0
    realisasi_sales := 0
    stok_awal := 0
    stok_akhir := 0
    order_qty := 0
    ito := 0
    isModified := false }

/-- The category-filter step at the top of `transformToPivotedData`. -/
def filteredProducts (f : PlanningFilter) (products : List MasterProduct) :
    List MasterProduct :=
  match f.kategori with
  | none => products
  | some k => products.filter (fun p => p.kategori = k)

/-- The fresh row built for one product in `transformToPivotedData`, with one
empty cell per month column. -/
def initRow (f : PlanningFilter) (p : MasterProduct) : PivotedProductRow :=
  { product_id := p.id
    kode_barang := p.kode_barang
    nama_produk := p.nama_produk
    tipe := p.tipe
    kategori := p.kategori
    std_pallet := p.std_pallet
    isi_dus := p.isi_dus
    region_id := f.region_id.getD ""
    region_kode := ""
    months := (monthColumns f).map
      (fun mc => (mc.key, createEmptyMonthData mc.date mc.label)) }

/-- `productMap` after the initialization loop: one entry per filtered
product, in list order (a JS `Map` keeps insertion order). -/
def buildProductMap (f : PlanningFilter) (ps : List MasterProduct) :
    List (String × PivotedProductRow) :=
  ps.foldl (fun m p => mapSet m p.id (initRow f p)) []

/-- `plan.bulan_tahun.substring(0, 7)`. -/
def monthKeyOf (bulanTahun : String) : String := bulanTahun.take 7

/-- The `MonthData` written from one `SalesPlanDetail` record. -/
def cellFromPlan (plan : SalesPlanDetail) : MonthData :=
  { id := some plan.id
    bulan_tahun := plan.bulan_tahun
    bulan_label := plan.bulan_label
    target_jual := plan.target_jual
    estimasi_jual := plan.estimasi_jual
    realisasi_sales := plan.realisasi_sales
    stok_awal := plan.stok_awal
    stok_akhir := plan.stok_akhir
    order_qty := plan.order_qty
    ito := plan.ito
    isModified := false }

/-- One iteration of the fill loop of `transformToPivotedData`: look up the
plan's row; if absent, skip; otherwise set `region_kode` and, when the month
key exists on the row, overwrite that cell. -/
def fillPlan (m : List (String × PivotedProductRow)) (plan : SalesPlanDetail) :
    List (String × PivotedProductRow) :=
  match m.lookup plan.product_id with
  | none => m
  | some row =>
    let mk := monthKeyOf plan.bulan_tahun
    let row' :=
      if (row.months.lookup mk).isSome then
        { row with
            region_kode := plan.region_kode
            months := mapSet row.months mk (cellFromPlan plan) }
      else
        { row with region_kode := plan.region_kode }
    mapSet m plan.product_id row'

/-- `transformToPivotedData`, as a pure function of the filter, the product
list and the fetched `salesPlanDetails`. -/
def transformToPivotedData (f : PlanningFilter) (products : List MasterProduct)
    (plans : List SalesPlanDetail) : List PivotedProductRow :=
  ((plans.foldl fillPlan (buildProductMap f (filteredProducts f products))).map
    Prod.snd)

/-- The `keyof MonthData` values `updateCell` can receive.  Only the first six
have a `case` in its `switch`; the others fall through with no field written
(but `isModified` is still set and the cell is still tracked). -/
inductive CellField
  | stok_awal
  | order_qty
  | estimasi_jual
  | target_jual
  | realisasi_sales
  | ito
  | id
  | bulan_tahun
  | bulan_label
  | stok_akhir
  | isModified
deriving Repr, DecidableEq

/-- The `switch (field)` of `updateCell`: write `value` into the named numeric
field; any other field name falls through unchanged. -/
def setField (md : MonthData) (f : CellField) (v : Int) : MonthData :=
  match f with
  | .stok_awal => { md with stok_awal := v }
  | .order_qty => { md with order_qty := v }
  | .estimasi_jual => { md with estimasi_jual := v }
  | .target_jual => { md with target_jual := v }
  | .realisasi_sales => { md with realisasi_sales := v }
  | .ito => { md with ito := v }
  | _ => md

/-- The `['stok_awal', 'order_qty', 'estimasi_jual']` recompute-trigger list. -/
def recomputeFields : List CellField :=
  [.stok_awal, .order_qty, .estimasi_jual]

/-- The full cell mutation done by `updateCell` on the found `monthData`:
set the field, mark modified, and recompute `stok_akhir` when the field is a
recompute trigger. -/
def applyEditToCell (md : MonthData) (f : CellField) (v : Int) : MonthData :=
  let md1 := { setField md f v with isModified := true }
  if f ∈ recomputeFields then
    { md1 with stok_akhir := md1.stok_awal + md1.order_qty - md1.estimasi_jual }
  else
    md1

/-- The mutable state of the planning store (the `ref`s the core operations
touch; loading flags are omitted). -/
structure StoreState where
  products : List MasterProduct
  salesPlanDetails : List SalesPlanDetail
  pivotedData : List PivotedProductRow
  modifiedCells : List (String × MonthData)
  currentFilter : PlanningFilter
  error : Option String
deriving Repr, DecidableEq

/-- The `hasUnsavedChanges` computed getter: `modifiedCells.size > 0`. -/
def hasUnsavedChanges (s : StoreState) : Bool :=
  s.modifiedCells.length > 0

/-- The `` `${productId}_${monthKey}` `` tracker key. -/
def cellKey (productId monthKey : String) : String :=
  productId ++ "_" ++ monthKey

/-- Replace the first row whose `product_id` matches (JS mutates the object
returned by `find`, leaving any later duplicate untouched). -/
def updateRowIn (rows : List PivotedProductRow) (pid : String)
    (row' : PivotedProductRow) : List PivotedProductRow :=
  match rows with
  | [] => []
  | r :: rs =>
    if r.product_id = pid then row' :: rs else r :: updateRowIn rs pid row'

/-- The cell displayed at `(productId, monthKey)`:
`pivotedData.find(r => r.product_id === productId)?.months[monthKey]`. -/
def lookupCell (s : StoreState) (productId monthKey : String) :
    Option MonthData :=
  match s.pivotedData.find? (fun r => r.product_id = productId) with
  | none => none
  | some row => row.months.lookup monthKey

/-- `updateCell(productId, monthKey, field, value)`: no-op when the row or the
month cell is missing; otherwise mutate the cell in place and snapshot it into
`modifiedCells` under the `` `${productId}_${monthKey}` `` key. -/
def updateCell (s : StoreState) (productId monthKey : String) (f : CellField)
    (v : Int) : StoreState :=
  match s.pivotedData.find? (fun r => r.product_id = productId) with
  | none => s
  | some row =>
    match row.months.lookup monthKey with
    | none => s
    | some md =>
      let md' := applyEditToCell md f v
      let row' := { row with months := mapSet row.months monthKey md' }
      { s with
          pivotedData := updateRowIn s.pivotedData productId row'
          modifiedCells :=
            mapSet s.modifiedCells (cellKey productId monthKey) md' }

/-- A sequence of `updateCell` calls. -/
def applyEdits (s : StoreState)
    (edits : List (String × String × CellField × Int)) : StoreState :=
  edits.foldl (fun st e => updateCell st e.1 e.2.1 e.2.2.1 e.2.2.2) s

/-- One element of the `upsertData` batch built by `saveChanges`. -/
structure UpsertRecord where
  id : Option String
  product_id : String
  region_id : String
  bulan_tahun : String
  target_jual : Int
  estimasi_jual : Int
  realisasi_sales : Int
  stok_awal : Int
  stok_akhir : Int
  order_qty : Int
  ito : Int
deriving Repr, DecidableEq

/-- JS truthiness of a `string | null` value: truthy iff non-null and
non-empty. -/
def strTruthy : Option String → Bool
  | none => false
  | some s => s ≠ ""

/-- `key.split('_')[0]`: everything before the first underscore (the whole
string when it has none, empty when it starts with one) — JavaScript
`split` with a one-character separator makes element 0 exactly this prefix. -/
def keyHead (k : String) : String :=
  String.mk (k.data.takeWhile (fun c => c ≠ '_'))

/-- The loop in `saveChanges` that turns `modifiedCells` into the upsert
batch: parse the product id back out of the key (`key.split('_')[0]`), take
the region from the current filter, skip the entry when either is falsy, copy
the seven quantity fields from the snapshot, and attach `id` only when the
snapshot's `id` is truthy. -/
def buildUpsertData (f : PlanningFilter) (cells : List (String × MonthData)) :
    List UpsertRecord :=
  cells.filterMap (fun kv =>
    if strTruthy f.region_id ∧ keyHead kv.1 ≠ "" then
      some
        { id := if strTruthy kv.2.id then kv.2.id else none
          product_id := keyHead kv.1
          region_id := f.region_id.getD ""
          bulan_tahun := kv.2.bulan_tahun
          target_jual := kv.2.target_jual
          estimasi_jual := kv.2.estimasi_jual
          realisasi_sales := kv.2.realisasi_sales
          stok_awal := kv.2.stok_awal
          stok_akhir := kv.2.stok_akhir
          order_qty := kv.2.order_qty
          ito := kv.2.ito }
    else
      none)

/-- Outcome of the remote batch upsert. -/
inductive UpsertResult
  | ok
  | fail (msg : String)
deriving Repr, DecidableEq

/-- Outcome of a remote fetch of `v_sales_plans_detail` rows. -/
inductive FetchResult
  | ok (plans : List SalesPlanDetail)
  | fail (msg : String)
deriving Repr, DecidableEq

/-- `fetchSalesPlans`, with the network outcome passed in: with a falsy
region (`if (!currentFilter.value.region_id)` — null or the empty string) it
just clears the records and the pivot and does not fetch; otherwise, on fetch
failure it only records the error, and on success it stores the rows and
re-runs the transform. -/
def fetchSalesPlans (s : StoreState) (res : FetchResult) : StoreState :=
  if strTruthy s.currentFilter.region_id then
    match res with
    | .fail msg => { s with error := some msg }
    | .ok plans =>
      { s with
          error := none
          salesPlanDetails := plans
          pivotedData := transformToPivotedData s.currentFilter s.products plans }
  else
    { s with salesPlanDetails := [], pivotedData := [] }

/-- `saveChanges`, with the two network outcomes passed in: a no-op without
unsaved changes; on upsert failure the error is recorded and nothing else
changes; on upsert success `modifiedCells` is cleared and `fetchSalesPlans`
runs against the fresh fetch outcome. -/
def saveChanges (s : StoreState) (upsert : UpsertResult) (fetch : FetchResult) :
    StoreState :=
  if hasUnsavedChanges s then
    match upsert with
    | .fail msg => { s with error := some msg }
    | .ok => fetchSalesPlans { s with error := none, modifiedCells := [] } fetch
  else
    s

/-- `discardChanges`: clear the tracker and re-run the transform on the
last-fetched records (no fetch parameter — nothing remote happens). -/
def discardChanges (s : StoreState) : StoreState :=
  { s with
      modifiedCells := []
      pivotedData :=
        transformToPivotedData s.currentFilter s.products s.salesPlanDetails }

/-- A `Partial<PlanningFilter>`: each field is present or absent. -/
structure PartialFilter where
  region_id : Option (Option String)
  kategori : Option (Option ProductCategory)
  year : Option Nat
  startMonth : Option Nat
  endMonth : Option Nat
deriving Repr, DecidableEq

/-- The `{ ...currentFilter.value, ...filter }` spread merge. -/
def mergeFilter (f : PlanningFilter) (p : PartialFilter) : PlanningFilter :=
  { region_id := p.region_id.getD f.region_id
    kategori := p.kategori.getD f.kategori
    year := p.year.getD f.year
    startMonth := p.startMonth.getD f.startMonth
    endMonth := p.endMonth.getD f.endMonth }

/-- `setFilter`: merge the partial filter into the current one, then fetch
exactly when the merged region is truthy (`if (currentFilter.value.region_id)`
— non-null and non-empty).  `modifiedCells` is never touched. -/
def setFilter (s : StoreState) (p : PartialFilter) (res : FetchResult) :
    StoreState :=
  let s0 := { s with currentFilter := mergeFilter s.currentFilter p }
  if strTruthy s0.currentFilter.region_id then fetchSalesPlans s0 res else s0

/-- Numeric projection of a cell by field name (0 for the non-numeric
fields, which `updateCell` never writes). -/
def getNumField (md : MonthData) : CellField → Int
  | .stok_awal => md.stok_awal
  | .order_qty => md.order_qty
  | .estimasi_jual => md.estimasi_jual
  | .target_jual => md.target_jual
  | .realisasi_sales => md.realisasi_sales
  | .ito => md.ito
  | .stok_akhir => md.stok_akhir
  | _ => 0

/-- Sort order used by `fetchMasterData` (`order('kategori')` then
`order('kode_barang')`) on products. -/
def prodLE (p q : MasterProduct) : Prop :=
  catIdx p.kategori < catIdx q.kategori ∨
    (p.kategori = q.kategori ∧ p.kode_barang ≤ q.kode_barang)

/-- The same order on pivot rows. -/
def rowLE (r s : PivotedProductRow) : Prop :=
  catIdx r.kategori < catIdx s.kategori ∨
    (r.kategori = s.kategori ∧ r.kode_barang ≤ s.kode_barang)

/-- The cell of the pivot output at a `(product_id, month key)` position. -/
def cellAtRows (rows : List PivotedProductRow) (pid mk : String) :
    Option MonthData :=
  match rows.find? (fun r => r.product_id = pid) with
  | none => none
  | some row => row.months.lookup mk

/-- The cell of a product map at a `(key, month key)` position. -/
def cellAtMap (pm : List (String × PivotedProductRow)) (pid mk : String) :
    Option MonthData :=
  (pm.lookup pid).bind (fun row => row.months.lookup mk)

/-- The shape the fill loop preserves, per (map entry, product) pair: the
entry is keyed by the product's id, its row carries that id and the product's
category and code, and its month keys are exactly the month columns'. -/
def RowMatches (f : PlanningFilter) (kv : String × PivotedProductRow)
    (p : MasterProduct) : Prop :=
  kv.1 = p.id ∧ kv.2.product_id = p.id ∧ kv.2.kategori = p.kategori ∧
  kv.2.kode_barang = p.kode_barang ∧
  kv.2.months.map Prod.fst = (monthColumns f).map MonthColumn.key

/-- The database sort key order on (category, code) pairs. -/
def pairLE (x y : ProductCategory × String) : Prop :=
  catIdx x.1 < catIdx y.1 ∨ (x.1 = y.1 ∧ x.2 ≤ y.2)

/-! ### Concrete fixtures (the worked example of the specification:
product P1, region R1, January-March 2026, one existing January record) -/

def sampleProduct : MasterProduct :=
  { id := "P1", kode_barang := "K1", nama_produk := some "Battery A"
    tipe := "NS40", kategori := .AMB, std_pallet := 10, isi_dus := 24 }

def sampleProduct2 : MasterProduct :=
  { id := "P2", kode_barang := "K2", nama_produk := none
    tipe := "NS60", kategori := .MCB, std_pallet := 8, isi_dus := 12 }

def sampleFilter : PlanningFilter :=
  { region_id := some "R1", kategori := none, year := 2026
    startMonth := 1, endMonth := 3 }

def samplePlan : SalesPlanDetail :=
  { id := "SP1", bulan_tahun := "2026-01-01", bulan_label := "Jan 2026"
    product_id := "P1", region_kode := "JKT"
    target_jual := 0, estimasi_jual := 60, realisasi_sales := 0
    stok_awal := 100, stok_akhir := 90, order_qty := 50, ito := 0 }

def sampleState : StoreState :=
  { products := [sampleProduct, sampleProduct2]
    salesPlanDetails := [samplePlan]
    pivotedData :=
      transformToPivotedData sampleFilter [sampleProduct, sampleProduct2]
        [samplePlan]
    modifiedCells := []
    currentFilter := sampleFilter
    error := none }

def sampleEditedState : StoreState :=
  updateCell sampleState "P1" "2026-02" CellField.stok_awal 40

def sampleEdits : List (String × String × CellField × Int) :=
  [("P1", "2026-02", CellField.stok_awal, 40),
   ("P2", "2026-03", CellField.order_qty, 7)]

def sampleFreshPlan : SalesPlanDetail :=
  { id := "SP2", bulan_tahun := "2026-02-01", bulan_label := "Feb 2026"
    product_id := "P1", region_kode := "JKT"
    target_jual := 0, estimasi_jual := 0, realisasi_sales := 0
    stok_awal := 40, stok_akhir := 40, order_qty := 0, ito := 0 }

def sampleRegionChange : PartialFilter :=
  { region_id := some (some "R2"), kategori := none, year := none
    startMonth := none, endMonth := none }

/-! ### Association-list lemmas for `mapSet` / `List.lookup` -/

theorem lookup_cons_self {α : Type} (k : String) (b : α) (t : List (String × α)) :
    ((k, b) :: t).lookup k = some b := by
  simp [List.lookup]

theorem lookup_cons_ne {α : Type} (k a : String) (b : α) (t : List (String × α))
    (h : a ≠ k) : ((a, b) :: t).lookup k = t.lookup k := by
  have hb : (k == a) = false := beq_eq_false_iff_ne.mpr (Ne.symm h)
  simp [List.lookup, hb]

theorem lookup_append_of_none {α : Type} (l1 l2 : List (String × α)) (k : String)
    (h : l1.lookup k = none) : (l1 ++ l2).lookup k = l2.lookup k := by
  induction l1 with
  | nil => simp
  | cons a t ih =>
    by_cases hk : a.1 = k
    · rw [← hk] at h
      rw [show a = (a.1, a.2) from rfl, lookup_cons_self] at h
      cases h
    · rw [List.cons_append, show a = (a.1, a.2) from rfl, lookup_cons_ne _ _ _ _ hk]
      rw [show a = (a.1, a.2) from rfl, lookup_cons_ne _ _ _ _ hk] at h
      exact ih h

theorem lookup_map_keyReplace {α : Type} (m : List (String × α)) (k : String) (v : α) :
    (m.map (fun kv => if kv.1 = k then (k, v) else kv)).lookup k =
      if (m.lookup k).isSome then some v else none := by
  induction m with
  | nil => simp
  | cons a t ih =>
    by_cases h : a.1 = k
    · rw [List.map_cons, if_pos h, show a = (a.1, a.2) from rfl, h,
        lookup_cons_self, lookup_cons_self]
      simp
    · rw [List.map_cons, if_neg h, show a = (a.1, a.2) from rfl,
        lookup_cons_ne _ _ _ _ h, lookup_cons_ne _ _ _ _ h]
      exact ih

theorem lookup_map_keyReplace_ne {α : Type} (m : List (String × α)) (k k' : String)
    (v : α) (h : k' ≠ k) :
    (m.map (fun kv => if kv.1 = k then (k, v) else kv)).lookup k' = m.lookup k' := by
  induction m with
  | nil => simp
  | cons a t ih =>
    by_cases hk : a.1 = k
    · rw [List.map_cons, if_pos hk, lookup_cons_ne _ _ _ _ (Ne.symm h),
        show a = (a.1, a.2) from rfl, lookup_cons_ne _ _ _ _ (hk ▸ Ne.symm h)]
      exact ih
    · rw [List.map_cons, if_neg hk]
      by_cases hk' : a.1 = k'
      · rw [show a = (a.1, a.2) from rfl, hk', lookup_cons_self, lookup_cons_self]
      · rw [show a = (a.1, a.2) from rfl, lookup_cons_ne _ _ _ _ hk',
          lookup_cons_ne _ _ _ _ hk']
        exact ih

theorem lookup_mapSet_self {α : Type} (m : List (String × α)) (k : String) (v : α) :
    (mapSet m k v).lookup k = some v := by
  unfold mapSet
  by_cases h : (m.lookup k).isSome
  · rw [if_pos h, lookup_map_keyReplace, if_pos h]
  · rw [if_neg h]
    have hn : m.lookup k = none := Option.not_isSome_iff_eq_none.mp h
    rw [lookup_append_of_none _ _ _ hn, lookup_cons_self]

theorem lookup_append {α : Type} (l1 l2 : List (String × α)) (k : String) :
    (l1 ++ l2).lookup k =
      match l1.lookup k with
      | some v => some v
      | none => l2.lookup k := by
  induction l1 with
  | nil => simp
  | cons a t ih =>
    by_cases hk : a.1 = k
    · rw [List.cons_append, show a = (a.1, a.2) from rfl, hk,
        lookup_cons_self, lookup_cons_self]
    · rw [List.cons_append, show a = (a.1, a.2) from rfl,
        lookup_cons_ne _ _ _ _ hk, lookup_cons_ne _ _ _ _ hk]
      exact ih

theorem lookup_mapSet_ne {α : Type} (m : List (String × α)) (k k' : String) (v : α)
    (h : k' ≠ k) : (mapSet m k v).lookup k' = m.lookup k' := by
  unfold mapSet
  by_cases hs : (m.lookup k).isSome
  · rw [if_pos hs, lookup_map_keyReplace_ne _ _ _ _ h]
  · rw [if_neg hs, lookup_append]
    have hone : ([(k, v)] : List (String × α)).lookup k' = none := by
      rw [lookup_cons_ne _ _ _ _ (Ne.symm h)]
      simp
    cases hm : m.lookup k' with
    | none => simpa using hone
    | some w => rfl

theorem keys_mapSet {α : Type} (m : List (String × α)) (k : String) (v : α) :
    (mapSet m k v).map Prod.fst =
      if (m.lookup k).isSome then m.map Prod.fst else m.map Prod.fst ++ [k] := by
  unfold mapSet
  by_cases h : (m.lookup k).isSome
  · rw [if_pos h, if_pos h, List.map_map]
    refine List.map_congr_left (fun kv _ => ?_)
    by_cases hk : kv.1 = k
    · simp [hk]
    · simp [hk]
  · rw [if_neg h, if_neg h]
    simp

theorem length_mapSet {α : Type} (m : List (String × α)) (k : String) (v : α) :
    (mapSet m k v).length = if (m.lookup k).isSome then m.length else m.length + 1 := by
  unfold mapSet
  by_cases hs : (m.lookup k).isSome
  · rw [if_pos hs, if_pos hs, List.length_map]
  · rw [if_neg hs, if_neg hs]
    simp

theorem lookup_isSome_iff_mem_keys {α : Type} (m : List (String × α)) (k : String) :
    (m.lookup k).isSome ↔ k ∈ m.map Prod.fst := by
  induction m with
  | nil => simp
  | cons a t ih =>
    by_cases hk : a.1 = k
    · rw [show a = (a.1, a.2) from rfl, hk, lookup_cons_self]
      simp
    · rw [show a = (a.1, a.2) from rfl, lookup_cons_ne _ _ _ _ hk]
      simp [ih, Ne.symm hk]

theorem mem_of_lookup_eq_some {α : Type} (m : List (String × α)) (k : String) (v : α)
    (h : m.lookup k = some v) : (k, v) ∈ m := by
  induction m with
  | nil => cases h
  | cons a t ih =>
    by_cases hk : a.1 = k
    · rw [show a = (a.1, a.2) from rfl, hk, lookup_cons_self] at h
      cases h
      simp [← hk]
    · rw [show a = (a.1, a.2) from rfl, lookup_cons_ne _ _ _ _ hk] at h
      exact List.mem_cons_of_mem _ (ih h)

theorem lookup_eq_none_of_not_mem {α : Type} (m : List (String × α)) (k : String)
    (h : k ∉ m.map Prod.fst) : m.lookup k = none :=
  Option.not_isSome_iff_eq_none.mp (fun hs =>
    h ((lookup_isSome_iff_mem_keys m k).mp hs))

/-! ### Lemmas about `updateRowIn`, `lookupCell` and `updateCell` -/

theorem find?_updateRowIn_self (rows : List PivotedProductRow) (pid : String)
    (row row' : PivotedProductRow)
    (h : rows.find? (fun r => r.product_id = pid) = some row)
    (h' : row'.product_id = pid) :
    (updateRowIn rows pid row').find? (fun r => r.product_id = pid) = some row' := by
  induction rows with
  | nil => cases h
  | cons r rs ih =>
    by_cases hr : r.product_id = pid
    · rw [updateRowIn, if_pos hr]
      exact List.find?_cons_of_pos _ (by simp [h'])
    · rw [updateRowIn, if_neg hr]
      rw [List.find?_cons_of_neg _ (by simp [hr])] at h
      rw [List.find?_cons_of_neg _ (by simp [hr])]
      exact ih h

theorem find?_updateRowIn_ne (rows : List PivotedProductRow) (pid pid' : String)
    (row' : PivotedProductRow) (h : pid' ≠ pid) (h' : row'.product_id = pid) :
    (updateRowIn rows pid row').find? (fun r => r.product_id = pid') =
      rows.find? (fun r => r.product_id = pid') := by
  induction rows with
  | nil => rfl
  | cons r rs ih =>
    by_cases hr : r.product_id = pid
    · rw [updateRowIn, if_pos hr]
      rw [List.find?_cons_of_neg _ (by simp [h', Ne.symm h]),
        List.find?_cons_of_neg _ (by simp [hr, Ne.symm h])]
    · rw [updateRowIn, if_neg hr]
      by_cases hr' : r.product_id = pid'
      · rw [List.find?_cons_of_pos _ (by simp [hr']),
          List.find?_cons_of_pos _ (by simp [hr'])]
      · rw [List.find?_cons_of_neg _ (by simp [hr']),
          List.find?_cons_of_neg _ (by simp [hr'])]
        exact ih

theorem lookupCell_elim (s : StoreState) (pid mk : String) (md : MonthData)
    (h : lookupCell s pid mk = some md) :
    ∃ row, s.pivotedData.find? (fun r => r.product_id = pid) = some row ∧
      row.months.lookup mk = some md ∧ row.product_id = pid := by
  unfold lookupCell at h
  cases hrow : s.pivotedData.find? (fun r => r.product_id = pid) with
  | none => rw [hrow] at h; cases h
  | some row =>
    rw [hrow] at h
    exact ⟨row, rfl, h, by simpa using List.find?_some hrow⟩

theorem updateCell_eq (s : StoreState) (pid mk : String) (f : CellField) (v : Int)
    (row : PivotedProductRow) (md : MonthData)
    (hrow : s.pivotedData.find? (fun r => r.product_id = pid) = some row)
    (hmd : row.months.lookup mk = some md) :
    updateCell s pid mk f v =
      { s with
          pivotedData := updateRowIn s.pivotedData pid
            { row with months := mapSet row.months mk (applyEditToCell md f v) }
          modifiedCells :=
            mapSet s.modifiedCells (cellKey pid mk) (applyEditToCell md f v) } := by
  unfold updateCell
  simp only [hrow, hmd]

theorem lookupCell_updateCell_self (s : StoreState) (pid mk : String)
    (f : CellField) (v : Int) (md : MonthData) (h : lookupCell s pid mk = some md) :
    lookupCell (updateCell s pid mk f v) pid mk = some (applyEditToCell md f v) := by
  obtain ⟨row, hrow, hmd, hpid⟩ := lookupCell_elim s pid mk md h
  rw [updateCell_eq s pid mk f v row md hrow hmd]
  unfold lookupCell
  rw [find?_updateRowIn_self s.pivotedData pid row _ hrow (by simpa using hpid)]
  exact lookup_mapSet_self _ _ _

theorem updateCell_noop (s : StoreState) (pid mk : String) (f : CellField) (v : Int)
    (h : lookupCell s pid mk = none) : updateCell s pid mk f v = s := by
  unfold updateCell
  cases hrow : s.pivotedData.find? (fun r => r.product_id = pid) with
  | none => rfl
  | some row =>
    have hm : row.months.lookup mk = none := by
      unfold lookupCell at h
      rw [hrow] at h
      simpa using h
    simp only [hm]

theorem updateCell_cases (s : StoreState) (pid mk : String) (f : CellField) (v : Int) :
    updateCell s pid mk f v = s ∨
    ∃ row md,
      s.pivotedData.find? (fun r => r.product_id = pid) = some row ∧
      row.months.lookup mk = some md ∧
      updateCell s pid mk f v =
        { s with
            pivotedData := updateRowIn s.pivotedData pid
              { row with months := mapSet row.months mk (applyEditToCell md f v) }
            modifiedCells :=
              mapSet s.modifiedCells (cellKey pid mk) (applyEditToCell md f v) } := by
  cases hc : lookupCell s pid mk with
  | none => exact Or.inl (updateCell_noop s pid mk f v hc)
  | some md =>
    obtain ⟨row, hrow, hmd, _⟩ := lookupCell_elim s pid mk md hc
    exact Or.inr ⟨row, md, hrow, hmd, updateCell_eq s pid mk f v row md hrow hmd⟩

theorem modifiedCells_updateCell (s : StoreState) (pid mk : String) (f : CellField)
    (v : Int) (md : MonthData) (h : lookupCell s pid mk = some md) :
    (updateCell s pid mk f v).modifiedCells =
      mapSet s.modifiedCells (cellKey pid mk) (applyEditToCell md f v) := by
  obtain ⟨row, hrow, hmd, _⟩ := lookupCell_elim s pid mk md h
  rw [updateCell_eq s pid mk f v row md hrow hmd]

theorem updateCell_preserves_base (s : StoreState) (pid mk : String) (f : CellField)
    (v : Int) :
    (updateCell s pid mk f v).products = s.products ∧
    (updateCell s pid mk f v).salesPlanDetails = s.salesPlanDetails ∧
    (updateCell s pid mk f v).currentFilter = s.currentFilter ∧
    (updateCell s pid mk f v).error = s.error := by
  rcases updateCell_cases s pid mk f v with h | ⟨row, md, _, _, h⟩ <;> rw [h] <;>
    exact ⟨rfl, rfl, rfl, rfl⟩

theorem lookupCell_updateCell_isSome (s : StoreState) (pid mk pid' mk' : String)
    (f : CellField) (v : Int) :
    (lookupCell (updateCell s pid mk f v) pid' mk').isSome =
      (lookupCell s pid' mk').isSome := by
  cases hc : lookupCell s pid mk with
  | none => rw [updateCell_noop s pid mk f v hc]
  | some md =>
    obtain ⟨row, hrow, hmd, hpid⟩ := lookupCell_elim s pid mk md hc
    rw [updateCell_eq s pid mk f v row md hrow hmd]
    by_cases hp : pid' = pid
    · unfold lookupCell
      rw [hp, find?_updateRowIn_self s.pivotedData pid row _ hrow (by simpa using hpid),
        hrow]
      show (List.lookup mk' (mapSet row.months mk (applyEditToCell md f v))).isSome =
          (List.lookup mk' row.months).isSome
      by_cases hm : mk' = mk
      · subst hm
        rw [lookup_mapSet_self, hmd]
        rfl
      · rw [lookup_mapSet_ne _ _ _ _ hm]
    · unfold lookupCell
      rw [find?_updateRowIn_ne s.pivotedData pid pid' _ hp (by simpa using hpid)]

/-! ### C1, C6, C9: updateCell behaviour on a single cell -/

/-- C1: after any `updateCell` call on an existing cell whose field is
`stok_awal`, `order_qty` or `estimasi_jual` — including a call writing the
field's current value — the edited cell satisfies
`stok_akhir = stok_awal + order_qty - estimasi_jual` and has
`isModified = true`; the state `s` is arbitrary, so this holds after any
sequence of such edits. -/
theorem recompute_invariant_updateCell (s : StoreState) (pid mk : String)
    (f : CellField) (v : Int) (md : MonthData)
    (hf : f ∈ recomputeFields) (h : lookupCell s pid mk = some md) :
    ∃ md', lookupCell (updateCell s pid mk f v) pid mk = some md' ∧
      md'.stok_akhir = md'.stok_awal + md'.order_qty - md'.estimasi_jual ∧
      md'.isModified = true := by
  refine ⟨applyEditToCell md f v,
    lookupCell_updateCell_self s pid mk f v md h, ?_, ?_⟩ <;>
    simp [applyEditToCell, hf]

theorem recompute_invariant_updateCell_witness :
    (CellField.stok_awal ∈ recomputeFields ∧
      lookupCell sampleState "P1" "2026-02" =
        some (createEmptyMonthData "2026-02-01" "Feb 2026")) ∧
    ∃ md', lookupCell (updateCell sampleState "P1" "2026-02"
        CellField.stok_awal 40) "P1" "2026-02" = some md' ∧
      md'.stok_akhir = md'.stok_awal + md'.order_qty - md'.estimasi_jual ∧
      md'.isModified = true :=
  ⟨⟨by decide, by decide⟩,
    recompute_invariant_updateCell sampleState "P1" "2026-02"
      CellField.stok_awal 40 (createEmptyMonthData "2026-02-01" "Feb 2026")
      (by decide) (by decide)⟩

/-- C6: an `updateCell` call on an existing cell whose field is
`target_jual`, `realisasi_sales` or `ito` leaves `stok_akhir` (and every cell
field other than the named field and the `isModified` flag) unchanged, writes
`v` into the named field and sets `isModified`. -/
theorem recompute_exclusion_updateCell (s : StoreState) (pid mk : String)
    (f : CellField) (v : Int) (md : MonthData)
    (hf : f = CellField.target_jual ∨ f = CellField.realisasi_sales ∨
      f = CellField.ito)
    (h : lookupCell s pid mk = some md) :
    ∃ md', lookupCell (updateCell s pid mk f v) pid mk = some md' ∧
      md'.stok_akhir = md.stok_akhir ∧
      md'.isModified = true ∧
      getNumField md' f = v ∧
      (∀ g : CellField, g ≠ f → getNumField md' g = getNumField md g) ∧
      md'.id = md.id ∧ md'.bulan_tahun = md.bulan_tahun ∧
      md'.bulan_label = md.bulan_label := by
  refine ⟨applyEditToCell md f v,
    lookupCell_updateCell_self s pid mk f v md h, ?_⟩
  rcases hf with hf | hf | hf <;> subst hf <;>
    refine ⟨?_, ?_, ?_, fun g hg => ?_, ?_, ?_, ?_⟩ <;>
    first
      | (cases g <;>
          simp_all [getNumField, applyEditToCell, setField, recomputeFields])
      | simp [getNumField, applyEditToCell, setField, recomputeFields]

theorem recompute_exclusion_updateCell_witness :
    ((CellField.ito = CellField.target_jual ∨
        CellField.ito = CellField.realisasi_sales ∨
        CellField.ito = CellField.ito) ∧
      lookupCell sampleState "P1" "2026-01" = some (cellFromPlan samplePlan)) ∧
    ∃ md', lookupCell (updateCell sampleState "P1" "2026-01"
        CellField.ito 7) "P1" "2026-01" = some md' ∧
      md'.stok_akhir = (cellFromPlan samplePlan).stok_akhir ∧
      md'.isModified = true ∧
      getNumField md' CellField.ito = 7 ∧
      (∀ g : CellField, g ≠ CellField.ito →
        getNumField md' g = getNumField (cellFromPlan samplePlan) g) ∧
      md'.id = (cellFromPlan samplePlan).id ∧
      md'.bulan_tahun = (cellFromPlan samplePlan).bulan_tahun ∧
      md'.bulan_label = (cellFromPlan samplePlan).bulan_label :=
  ⟨⟨by decide, by decide⟩,
    recompute_exclusion_updateCell sampleState "P1" "2026-01"
      CellField.ito 7 (cellFromPlan samplePlan) (by decide) (by decide)⟩

/-- C9: an `updateCell` call for a product with no pivot row, or a month key
with no cell on the row, is a complete no-op: the state — pivot rows, tracker
and `hasUnsavedChanges` included — is unchanged. -/
theorem updateCell_missing_cell_noop (s : StoreState) (pid mk : String)
    (f : CellField) (v : Int) (h : lookupCell s pid mk = none) :
    updateCell s pid mk f v = s ∧
    (updateCell s pid mk f v).pivotedData = s.pivotedData ∧
    (updateCell s pid mk f v).modifiedCells = s.modifiedCells ∧
    hasUnsavedChanges (updateCell s pid mk f v) = hasUnsavedChanges s := by
  have h' := updateCell_noop s pid mk f v h
  exact ⟨h', by rw [h'], by rw [h'], by rw [h']⟩

theorem updateCell_missing_cell_noop_witness :
    lookupCell sampleState "P9" "2026-01" = none ∧
    updateCell sampleState "P9" "2026-01" CellField.stok_awal 5 = sampleState ∧
    (updateCell sampleState "P9" "2026-01" CellField.stok_awal 5).pivotedData =
      sampleState.pivotedData ∧
    (updateCell sampleState "P9" "2026-01" CellField.stok_awal 5).modifiedCells =
      sampleState.modifiedCells ∧
    hasUnsavedChanges (updateCell sampleState "P9" "2026-01"
        CellField.stok_awal 5) = hasUnsavedChanges sampleState :=
  ⟨by decide,
    updateCell_missing_cell_noop sampleState "P9" "2026-01"
      CellField.stok_awal 5 (by decide)⟩

/-! ### C4, C5, C10: save, discard, filter -/

theorem fetchSalesPlans_preserves (s : StoreState) (res : FetchResult) :
    (fetchSalesPlans s res).modifiedCells = s.modifiedCells ∧
    (fetchSalesPlans s res).currentFilter = s.currentFilter ∧
    (fetchSalesPlans s res).products = s.products := by
  unfold fetchSalesPlans
  by_cases h : strTruthy s.currentFilter.region_id = true
  · rw [if_pos h]
    cases res with
    | fail m => exact ⟨rfl, rfl, rfl⟩
    | ok plans => exact ⟨rfl, rfl, rfl⟩
  · rw [if_neg h]
    exact ⟨rfl, rfl, rfl⟩

/-- C4: a failed batch upsert changes nothing but the error message — the
tracker, the pivot rows, the fetched records and the filter are untouched, so
retrying builds the identical batch; with a (truthy, as all real region ids
are) region selected, a successful upsert clears the tracker in full, stores
the freshly fetched records and rebuilds the pivot from them by the
transform. -/
theorem saveChanges_atomicity (s : StoreState) (msg : String) (fres : FetchResult)
    (fresh : List SalesPlanDetail) (r : String)
    (hne : s.modifiedCells ≠ []) (hreg : s.currentFilter.region_id = some r)
    (hr : r ≠ "") :
    ((saveChanges s (UpsertResult.fail msg) fres).modifiedCells =
        s.modifiedCells ∧
      (saveChanges s (UpsertResult.fail msg) fres).pivotedData =
        s.pivotedData ∧
      (saveChanges s (UpsertResult.fail msg) fres).salesPlanDetails =
        s.salesPlanDetails ∧
      (saveChanges s (UpsertResult.fail msg) fres).currentFilter =
        s.currentFilter ∧
      (saveChanges s (UpsertResult.fail msg) fres).error = some msg ∧
      buildUpsertData (saveChanges s (UpsertResult.fail msg) fres).currentFilter
          (saveChanges s (UpsertResult.fail msg) fres).modifiedCells =
        buildUpsertData s.currentFilter s.modifiedCells) ∧
    ((saveChanges s UpsertResult.ok (FetchResult.ok fresh)).modifiedCells = [] ∧
      (saveChanges s UpsertResult.ok (FetchResult.ok fresh)).salesPlanDetails =
        fresh ∧
      (saveChanges s UpsertResult.ok (FetchResult.ok fresh)).pivotedData =
        transformToPivotedData s.currentFilter s.products fresh) := by
  have hlen : hasUnsavedChanges s = true := by
    simp [hasUnsavedChanges, List.length_pos, hne]
  constructor
  · simp [saveChanges, hlen]
  · simp [saveChanges, hlen, fetchSalesPlans, hreg, strTruthy, hr]

theorem saveChanges_atomicity_witness :
    (sampleEditedState.modifiedCells ≠ [] ∧
      sampleEditedState.currentFilter.region_id = some "R1" ∧
      "R1" ≠ "") ∧
    ((saveChanges sampleEditedState (UpsertResult.fail "boom")
          (FetchResult.ok [])).modifiedCells = sampleEditedState.modifiedCells ∧
      (saveChanges sampleEditedState (UpsertResult.fail "boom")
          (FetchResult.ok [])).pivotedData = sampleEditedState.pivotedData ∧
      (saveChanges sampleEditedState (UpsertResult.fail "boom")
          (FetchResult.ok [])).salesPlanDetails =
        sampleEditedState.salesPlanDetails ∧
      (saveChanges sampleEditedState (UpsertResult.fail "boom")
          (FetchResult.ok [])).currentFilter =
        sampleEditedState.currentFilter ∧
      (saveChanges sampleEditedState (UpsertResult.fail "boom")
          (FetchResult.ok [])).error = some "boom" ∧
      buildUpsertData (saveChanges sampleEditedState (UpsertResult.fail "boom")
            (FetchResult.ok [])).currentFilter
          (saveChanges sampleEditedState (UpsertResult.fail "boom")
            (FetchResult.ok [])).modifiedCells =
        buildUpsertData sampleEditedState.currentFilter
          sampleEditedState.modifiedCells) ∧
    ((saveChanges sampleEditedState UpsertResult.ok
          (FetchResult.ok [samplePlan, sampleFreshPlan])).modifiedCells = [] ∧
      (saveChanges sampleEditedState UpsertResult.ok
          (FetchResult.ok [samplePlan, sampleFreshPlan])).salesPlanDetails =
        [samplePlan, sampleFreshPlan] ∧
      (saveChanges sampleEditedState UpsertResult.ok
          (FetchResult.ok [samplePlan, sampleFreshPlan])).pivotedData =
        transformToPivotedData sampleEditedState.currentFilter
          sampleEditedState.products [samplePlan, sampleFreshPlan]) :=
  ⟨⟨by decide, by decide, by decide⟩,
    saveChanges_atomicity sampleEditedState "boom" (FetchResult.ok [])
      [samplePlan, sampleFreshPlan] "R1" (by decide) (by decide) (by decide)⟩

theorem applyEdits_preserves_base (edits : List (String × String × CellField × Int)) :
    ∀ s : StoreState,
    (applyEdits s edits).products = s.products ∧
    (applyEdits s edits).salesPlanDetails = s.salesPlanDetails ∧
    (applyEdits s edits).currentFilter = s.currentFilter := by
  induction edits with
  | nil =>
    intro s
    exact ⟨rfl, rfl, rfl⟩
  | cons e rest ih =>
    intro s
    have h1 := updateCell_preserves_base s e.1 e.2.1 e.2.2.1 e.2.2.2
    have h2 := ih (updateCell s e.1 e.2.1 e.2.2.1 e.2.2.2)
    unfold applyEdits at h2 ⊢
    rw [List.foldl_cons]
    exact ⟨h2.1.trans h1.1, h2.2.1.trans h1.2.1, h2.2.2.trans h1.2.2.1⟩

/-- C5: after any sequence of `updateCell` edits followed by
`discardChanges`, the tracker is empty and the pivot again equals the
transform of the last-fetched (pre-edit) records — which is the pre-edit
pivot — with the stored records untouched (no re-fetch is involved:
`discardChanges` takes no remote input at all). -/
theorem discard_restores (s : StoreState)
    (edits : List (String × String × CellField × Int))
    (hpiv : s.pivotedData =
      transformToPivotedData s.currentFilter s.products s.salesPlanDetails) :
    (discardChanges (applyEdits s edits)).modifiedCells = [] ∧
    (discardChanges (applyEdits s edits)).salesPlanDetails =
      s.salesPlanDetails ∧
    (discardChanges (applyEdits s edits)).pivotedData =
      transformToPivotedData s.currentFilter s.products s.salesPlanDetails ∧
    (discardChanges (applyEdits s edits)).pivotedData = s.pivotedData := by
  obtain ⟨h1, h2, h3⟩ := applyEdits_preserves_base edits s
  unfold discardChanges
  refine ⟨rfl, h2, ?_, ?_⟩ <;> simp [h1, h2, h3, hpiv]

theorem discard_restores_witness :
    sampleState.pivotedData =
    transformToPivotedData sampleState.currentFilter sampleState.products
        sampleState.salesPlanDetails ∧
    ((discardChanges (applyEdits sampleState sampleEdits)).modifiedCells = [] ∧
      (discardChanges (applyEdits sampleState sampleEdits)).salesPlanDetails =
        sampleState.salesPlanDetails ∧
      (discardChanges (applyEdits sampleState sampleEdits)).pivotedData =
        transformToPivotedData sampleState.currentFilter sampleState.products
          sampleState.salesPlanDetails ∧
      (discardChanges (applyEdits sampleState sampleEdits)).pivotedData =
        sampleState.pivotedData) :=
  ⟨rfl, discard_restores sampleState sampleEdits rfl⟩

theorem region_of_mem_buildUpsertData (f : PlanningFilter)
    (cells : List (String × MonthData)) (rec : UpsertRecord)
    (h : rec ∈ buildUpsertData f cells) : rec.region_id = f.region_id.getD "" := by
  unfold buildUpsertData at h
  rw [List.mem_filterMap] at h
  obtain ⟨kv, hkv, heq⟩ := h
  by_cases hc : strTruthy f.region_id ∧ keyHead kv.1 ≠ ""
  · rw [if_pos hc] at heq
    cases heq
    rfl
  · rw [if_neg hc] at heq
    cases heq

/-- C10: `setFilter` never touches the tracker, and the batch built by a
later commit takes its region from the filter current at commit time — so an
entry recorded before a region change is committed under the newly selected
region. -/
theorem commit_uses_current_region (s : StoreState) (p : PartialFilter)
    (res : FetchResult) (r2 : String) (hp : p.region_id = some (some r2)) :
    (setFilter s p res).modifiedCells = s.modifiedCells ∧
    (setFilter s p res).currentFilter.region_id = some r2 ∧
    (r2 ≠ "" → ∀ rec ∈ buildUpsertData (setFilter s p res).currentFilter
        (setFilter s p res).modifiedCells, rec.region_id = r2) := by
  have hm : (mergeFilter s.currentFilter p).region_id = some r2 := by
    simp [mergeFilter, hp]
  have hsf : setFilter s p res =
      if strTruthy (mergeFilter s.currentFilter p).region_id = true then
        fetchSalesPlans
          { s with currentFilter := mergeFilter s.currentFilter p } res
      else { s with currentFilter := mergeFilter s.currentFilter p } := rfl
  have hpres : (setFilter s p res).modifiedCells = s.modifiedCells ∧
      (setFilter s p res).currentFilter = mergeFilter s.currentFilter p := by
    rw [hsf]
    by_cases h : strTruthy (mergeFilter s.currentFilter p).region_id = true
    · rw [if_pos h]
      obtain ⟨f1, f2, _⟩ :=
        fetchSalesPlans_preserves
          { s with currentFilter := mergeFilter s.currentFilter p } res
      exact ⟨f1, f2⟩
    · rw [if_neg h]
      exact ⟨rfl, rfl⟩
  refine ⟨hpres.1, by rw [hpres.2]; exact hm, fun hr2 rec hrec => ?_⟩
  have hgd := region_of_mem_buildUpsertData _ _ _ hrec
  rw [hpres.2, hm] at hgd
  simpa using hgd

theorem commit_uses_current_region_witness :
    sampleRegionChange.region_id = some (some "R2") ∧
    ((setFilter sampleEditedState sampleRegionChange
        (FetchResult.ok [])).modifiedCells =
      sampleEditedState.modifiedCells ∧
    (setFilter sampleEditedState sampleRegionChange
        (FetchResult.ok [])).currentFilter.region_id = some "R2" ∧
    ("R2" ≠ "" → ∀ rec ∈ buildUpsertData
        (setFilter sampleEditedState sampleRegionChange
          (FetchResult.ok [])).currentFilter
        (setFilter sampleEditedState sampleRegionChange
          (FetchResult.ok [])).modifiedCells, rec.region_id = "R2")) :=
  ⟨rfl,
    commit_uses_current_region sampleEditedState sampleRegionChange
      (FetchResult.ok []) "R2" rfl⟩

/-! ### C7: tracker accuracy -/

theorem applyEdits_tracker_length
    (edits : List (String × String × CellField × Int)) :
    ∀ s : StoreState,
    (∀ e ∈ edits, (lookupCell s e.1 e.2.1).isSome) →
    (edits.map (fun e => cellKey e.1 e.2.1)).Nodup →
    (∀ e ∈ edits, s.modifiedCells.lookup (cellKey e.1 e.2.1) = none) →
    (applyEdits s edits).modifiedCells.length =
      s.modifiedCells.length + edits.length := by
  induction edits with
  | nil =>
    intro s _ _ _
    simp [applyEdits]
  | cons e rest ih =>
    intro s hex hnd hfresh
    have he : (lookupCell s e.1 e.2.1).isSome = true := hex e (by simp)
    obtain ⟨md, hmd⟩ := Option.isSome_iff_exists.mp he
    have htr : (updateCell s e.1 e.2.1 e.2.2.1 e.2.2.2).modifiedCells =
        mapSet s.modifiedCells (cellKey e.1 e.2.1)
          (applyEditToCell md e.2.2.1 e.2.2.2) :=
      modifiedCells_updateCell s e.1 e.2.1 e.2.2.1 e.2.2.2 md hmd
    have hfr : s.modifiedCells.lookup (cellKey e.1 e.2.1) = none :=
      hfresh e (by simp)
    have hlen1 : (updateCell s e.1 e.2.1 e.2.2.1 e.2.2.2).modifiedCells.length =
        s.modifiedCells.length + 1 := by
      rw [htr, length_mapSet, hfr]
      simp
    have hkeys1 :
        (updateCell s e.1 e.2.1 e.2.2.1 e.2.2.2).modifiedCells.map Prod.fst =
        s.modifiedCells.map Prod.fst ++ [cellKey e.1 e.2.1] := by
      rw [htr, keys_mapSet, hfr]
      simp
    have happ : applyEdits s (e :: rest) =
        applyEdits (updateCell s e.1 e.2.1 e.2.2.1 e.2.2.2) rest := by
      unfold applyEdits
      rw [List.foldl_cons]
    have hndrest : (rest.map (fun e => cellKey e.1 e.2.1)).Nodup :=
      (List.nodup_cons.mp (by simpa using hnd)).2
    have hkey_e : cellKey e.1 e.2.1 ∉ rest.map (fun e => cellKey e.1 e.2.1) :=
      (List.nodup_cons.mp (by simpa using hnd)).1
    rw [happ, ih (updateCell s e.1 e.2.1 e.2.2.1 e.2.2.2) ?_ hndrest ?_]
    · rw [hlen1]
      simp [List.length_cons]
      omega
    · intro e' he'
      rw [lookupCell_updateCell_isSome]
      exact hex e' (by simp [he'])
    · intro e' he'
      apply lookup_eq_none_of_not_mem
      rw [hkeys1]
      simp only [List.mem_append, List.mem_singleton]
      push_neg
      refine ⟨?_, ?_⟩
      · rw [← lookup_isSome_iff_mem_keys, hfresh e' (by simp [he'])]
        simp
      · intro hkeq
        exact hkey_e (hkeq ▸ List.mem_map_of_mem _ he')

/-- C7: starting from an empty tracker, N successful edits to N distinct
cells leave exactly N tracker entries (and `hasUnsavedChanges` once N ≥ 1);
two successive edits to the same cell leave exactly one entry, holding the
cell's latest value; and `hasUnsavedChanges` is true iff the tracker is
non-empty. -/
theorem tracker_accuracy :
    (∀ (s : StoreState) (edits : List (String × String × CellField × Int)),
      s.modifiedCells = [] →
      (∀ e ∈ edits, (lookupCell s e.1 e.2.1).isSome) →
      (edits.map (fun e => cellKey e.1 e.2.1)).Nodup →
      (applyEdits s edits).modifiedCells.length = edits.length ∧
        (edits ≠ [] → hasUnsavedChanges (applyEdits s edits) = true)) ∧
    (∀ (s : StoreState) (pid mk : String) (f1 f2 : CellField) (v1 v2 : Int),
      s.modifiedCells = [] → (lookupCell s pid mk).isSome →
      (updateCell (updateCell s pid mk f1 v1) pid mk f2 v2).modifiedCells.length
          = 1 ∧
        (updateCell (updateCell s pid mk f1 v1) pid mk f2 v2).modifiedCells.lookup
            (cellKey pid mk) =
          lookupCell (updateCell (updateCell s pid mk f1 v1) pid mk f2 v2)
            pid mk) ∧
    (∀ s : StoreState, hasUnsavedChanges s = true ↔ s.modifiedCells ≠ []) := by
  refine ⟨fun s edits hemp hex hnd => ?_, fun s pid mk f1 f2 v1 v2 hemp hex => ?_,
    fun s => ?_⟩
  · have hlen := applyEdits_tracker_length edits s hex hnd
      (fun e _ => by rw [hemp]; rfl)
    rw [hemp] at hlen
    simp only [List.length_nil, Nat.zero_add] at hlen
    refine ⟨hlen, fun hne => ?_⟩
    have : 0 < edits.length := List.length_pos.mpr hne
    simp [hasUnsavedChanges, hlen]
    omega
  · obtain ⟨md, hmd⟩ := Option.isSome_iff_exists.mp hex
    have htr1 : (updateCell s pid mk f1 v1).modifiedCells =
        [(cellKey pid mk, applyEditToCell md f1 v1)] := by
      rw [modifiedCells_updateCell s pid mk f1 v1 md hmd, hemp]
      rfl
    have hmd1 : lookupCell (updateCell s pid mk f1 v1) pid mk =
        some (applyEditToCell md f1 v1) :=
      lookupCell_updateCell_self s pid mk f1 v1 md hmd
    have htr2 : (updateCell (updateCell s pid mk f1 v1) pid mk f2 v2).modifiedCells =
        mapSet [(cellKey pid mk, applyEditToCell md f1 v1)] (cellKey pid mk)
          (applyEditToCell (applyEditToCell md f1 v1) f2 v2) := by
      rw [modifiedCells_updateCell (updateCell s pid mk f1 v1) pid mk f2 v2
        (applyEditToCell md f1 v1) hmd1, htr1]
    have hms : mapSet [(cellKey pid mk, applyEditToCell md f1 v1)] (cellKey pid mk)
        (applyEditToCell (applyEditToCell md f1 v1) f2 v2) =
        [(cellKey pid mk, applyEditToCell (applyEditToCell md f1 v1) f2 v2)] := by
      unfold mapSet
      rw [if_pos (by rw [lookup_cons_self]; rfl)]
      simp
    have hmd2 : lookupCell (updateCell (updateCell s pid mk f1 v1) pid mk f2 v2)
        pid mk = some (applyEditToCell (applyEditToCell md f1 v1) f2 v2) :=
      lookupCell_updateCell_self (updateCell s pid mk f1 v1) pid mk f2 v2
        (applyEditToCell md f1 v1) hmd1
    rw [htr2, hms, hmd2]
    exact ⟨rfl, lookup_cons_self _ _ _⟩
  · simp [hasUnsavedChanges, List.length_pos]

theorem tracker_accuracy_witness :
    (applyEdits sampleState sampleEdits).modifiedCells.length = 2 ∧
    (updateCell (updateCell sampleState "P1" "2026-02" CellField.stok_awal 40)
        "P1" "2026-02" CellField.order_qty 5).modifiedCells.length = 1 ∧
    (hasUnsavedChanges sampleState = true ↔ sampleState.modifiedCells ≠ []) :=
  ⟨(tracker_accuracy.1 sampleState sampleEdits (by decide) (by decide)
      (by decide)).1,
    (tracker_accuracy.2.1 sampleState "P1" "2026-02" CellField.stok_awal
      CellField.order_qty 40 5 (by decide) (by decide)).1,
    tracker_accuracy.2.2 sampleState⟩

/-! ### C8: the upsert batch built by saveChanges -/

theorem takeWhile_all_stop (p : Char → Bool) (l1 : List Char) (c : Char)
    (l2 : List Char) (h1 : ∀ x ∈ l1, p x = true) (hc : p c = false) :
    (l1 ++ c :: l2).takeWhile p = l1 := by
  induction l1 with
  | nil => simp [List.takeWhile_cons, hc]
  | cons a t ih =>
    have ha : p a = true := h1 a (by simp)
    simp only [List.cons_append, List.takeWhile_cons, ha, if_true]
    rw [ih (fun x hx => h1 x (by simp [hx]))]

/-- C8: with a region selected (non-empty, as region ids are) and tracker
keys whose parsed product id is non-empty (as `` `${productId}_${monthKey}` ``
keys with non-empty ids are), the batch holds exactly one record per tracker
entry, in order, carrying the parsed product id, the currently selected
region, and the snapshot's month date and seven quantity fields; the
originating record id is attached exactly when the snapshot had one
(tracked ids are either absent or non-empty database ids, per the
`kv.2.id ≠ some ""` hypothesis matching the code's truthiness test). -/
theorem commit_payload (f : PlanningFilter) (cells : List (String × MonthData))
    (r : String) (hreg : f.region_id = some r) (hr : r ≠ "")
    (hpid : ∀ kv ∈ cells, keyHead kv.1 ≠ "")
    (hid : ∀ kv ∈ cells, kv.2.id ≠ some "") :
    buildUpsertData f cells = cells.map (fun kv =>
      { id := kv.2.id
        product_id := keyHead kv.1
        region_id := r
        bulan_tahun := kv.2.bulan_tahun
        target_jual := kv.2.target_jual
        estimasi_jual := kv.2.estimasi_jual
        realisasi_sales := kv.2.realisasi_sales
        stok_awal := kv.2.stok_awal
        stok_akhir := kv.2.stok_akhir
        order_qty := kv.2.order_qty
        ito := kv.2.ito }) ∧
    (∀ pid mk : String, (∀ c ∈ pid.data, c ≠ '_') →
      keyHead (cellKey pid mk) = pid) := by
  refine ⟨?_, fun pid mk hp => ?_⟩
  case refine_2 =>
    show String.mk ((pid ++ "_" ++ mk).data.takeWhile (fun c => c ≠ '_')) = pid
    have hdata : (pid ++ "_" ++ mk).data = pid.data ++ ('_' :: mk.data) := by
      simp [String.data_append]
    rw [hdata, takeWhile_all_stop _ _ _ _ (fun x hx => by simp [hp x hx])
      (by simp)]
  revert hpid hid
  induction cells with
  | nil =>
    intro _ _
    rfl
  | cons kv t ih =>
    intro hpid hid
    have h1 : strTruthy f.region_id = true := by
      rw [hreg]
      simpa [strTruthy] using hr
    have h2 := hpid kv (by simp)
    have h3 : (if strTruthy kv.2.id then kv.2.id else none) = kv.2.id := by
      cases hk : kv.2.id with
      | none => simp [strTruthy]
      | some str =>
        have hstr : str ≠ "" := by
          intro hstr
          exact (hid kv (by simp)) (by rw [hk, hstr])
        simp [strTruthy, hstr]
    unfold buildUpsertData at ih ⊢
    rw [List.filterMap_cons, if_pos ⟨by simp [h1], h2⟩, h3, List.map_cons,
      ih (fun kv h => hpid kv (by simp [h])) (fun kv h => hid kv (by simp [h])),
      hreg]
    rfl

theorem commit_payload_witness :
    (sampleFilter.region_id = some "R1" ∧ "R1" ≠ "" ∧
      (∀ kv ∈ sampleEditedState.modifiedCells, keyHead kv.1 ≠ "") ∧
      (∀ kv ∈ sampleEditedState.modifiedCells, kv.2.id ≠ some "")) ∧
    buildUpsertData sampleFilter sampleEditedState.modifiedCells =
      sampleEditedState.modifiedCells.map (fun kv =>
        { id := kv.2.id
          product_id := keyHead kv.1
          region_id := "R1"
          bulan_tahun := kv.2.bulan_tahun
          target_jual := kv.2.target_jual
          estimasi_jual := kv.2.estimasi_jual
          realisasi_sales := kv.2.realisasi_sales
          stok_awal := kv.2.stok_awal
          stok_akhir := kv.2.stok_akhir
          order_qty := kv.2.order_qty
          ito := kv.2.ito }) ∧
      (∀ pid mk : String, (∀ c ∈ pid.data, c ≠ '_') →
        keyHead (cellKey pid mk) = pid) :=
  ⟨⟨rfl, by decide, by decide, by decide⟩,
    commit_payload sampleFilter sampleEditedState.modifiedCells "R1" rfl
      (by decide) (by decide) (by decide)⟩

/-! ### C2, C3: the pivot transform -/

theorem buildProductMap_go (f : PlanningFilter) (ps : List MasterProduct) :
    ∀ acc : List (String × PivotedProductRow),
    (∀ p ∈ ps, acc.lookup p.id = none) →
    (ps.map (fun p => p.id)).Nodup →
    ps.foldl (fun m p => mapSet m p.id (initRow f p)) acc =
      acc ++ ps.map (fun p => (p.id, initRow f p)) := by
  induction ps with
  | nil =>
    intro acc _ _
    simp
  | cons p t ih =>
    intro acc hdisj hnd
    rw [List.foldl_cons]
    have hl : acc.lookup p.id = none := hdisj p (by simp)
    have hm : mapSet acc p.id (initRow f p) = acc ++ [(p.id, initRow f p)] := by
      unfold mapSet
      rw [if_neg (by simp [hl])]
    rw [hm, ih (acc ++ [(p.id, initRow f p)]) ?_ ?_]
    · simp
    · intro q hq
      have h0 : acc.lookup q.id = none := hdisj q (by simp [hq])
      rw [lookup_append, h0]
      show ([(p.id, initRow f p)] : List (String × PivotedProductRow)).lookup q.id
        = none
      have hqp : p.id ≠ q.id := by
        intro he
        rw [List.map_cons, List.nodup_cons] at hnd
        exact hnd.1 (he ▸ List.mem_map_of_mem _ hq)
      rw [lookup_cons_ne _ _ _ _ hqp]
      rfl
    · have hnd2 : (t.map (fun p => p.id)).Nodup := by
        rw [List.map_cons, List.nodup_cons] at hnd
        exact hnd.2
      exact hnd2

theorem buildProductMap_eq (f : PlanningFilter) (ps : List MasterProduct)
    (hnd : (ps.map (fun p => p.id)).Nodup) :
    buildProductMap f ps = ps.map (fun p => (p.id, initRow f p)) := by
  unfold buildProductMap
  rw [buildProductMap_go f ps [] (fun p _ => rfl) hnd]
  rfl

theorem forall₂_init (f : PlanningFilter) (ps : List MasterProduct) :
    List.Forall₂ (RowMatches f) (ps.map fun p => (p.id, initRow f p)) ps := by
  induction ps with
  | nil => exact List.Forall₂.nil
  | cons p t ih =>
    refine List.Forall₂.cons ⟨rfl, rfl, rfl, rfl, ?_⟩ ih
    show ((monthColumns f).map
        (fun mc => (mc.key, createEmptyMonthData mc.date mc.label))).map Prod.fst
      = (monthColumns f).map MonthColumn.key
    rw [List.map_map]
    rfl

theorem keys_eq_of_forall₂ (f : PlanningFilter)
    {pm : List (String × PivotedProductRow)} {ps : List MasterProduct}
    (h : List.Forall₂ (RowMatches f) pm ps) :
    pm.map Prod.fst = ps.map (fun p => p.id) := by
  induction h with
  | nil => rfl
  | cons h1 h2 ih => simp [ih, h1.1]

theorem sndpid_eq_of_forall₂ (f : PlanningFilter)
    {pm : List (String × PivotedProductRow)} {ps : List MasterProduct}
    (h : List.Forall₂ (RowMatches f) pm ps) :
    pm.map (fun kv => kv.2.product_id) = ps.map (fun p => p.id) := by
  induction h with
  | nil => rfl
  | cons h1 h2 ih => simp [ih, h1.2.1]

theorem attrs_eq_of_forall₂ (f : PlanningFilter)
    {pm : List (String × PivotedProductRow)} {ps : List MasterProduct}
    (h : List.Forall₂ (RowMatches f) pm ps) :
    pm.map (fun kv => (kv.2.kategori, kv.2.kode_barang)) =
      ps.map (fun p => (p.kategori, p.kode_barang)) := by
  induction h with
  | nil => rfl
  | cons h1 h2 ih => simp [ih, h1.2.2.1, h1.2.2.2.1]

theorem forall₂_mem_left {α β : Type} {R : α → β → Prop} {l1 : List α}
    {l2 : List β} (h : List.Forall₂ R l1 l2) (a : α) (ha : a ∈ l1) :
    ∃ b ∈ l2, R a b := by
  induction h with
  | nil => cases ha
  | cons h1 h2 ih =>
    rcases List.mem_cons.mp ha with he | ht
    · subst he
      exact ⟨_, by simp, h1⟩
    · obtain ⟨b, hb, hr⟩ := ih ht
      exact ⟨b, by simp [hb], hr⟩

theorem map_keyReplace_id {α : Type} (m : List (String × α)) (k : String) (v : α)
    (h : ∀ kv ∈ m, kv.1 ≠ k) :
    m.map (fun kv => if kv.1 = k then (k, v) else kv) = m := by
  have h2 : m.map (fun kv => if kv.1 = k then (k, v) else kv) = m.map id :=
    List.map_congr_left (fun kv hkv => by rw [if_neg (h kv hkv)]; rfl)
  simpa using h2

theorem forall₂_replace_row (f : PlanningFilter) (pid : String)
    (row row' : PivotedProductRow)
    (h2 : row'.product_id = row.product_id) (h3 : row'.kategori = row.kategori)
    (h4 : row'.kode_barang = row.kode_barang)
    (h5 : row'.months.map Prod.fst = row.months.map Prod.fst) :
    ∀ {pm : List (String × PivotedProductRow)} {ps : List MasterProduct},
      List.Forall₂ (RowMatches f) pm ps →
      pm.lookup pid = some row →
      (pm.map Prod.fst).Nodup →
      List.Forall₂ (RowMatches f)
        (pm.map (fun kv => if kv.1 = pid then (pid, row') else kv)) ps := by
  intro pm ps hall
  induction hall with
  | nil =>
    intro h _
    cases h
  | cons h1 htail ih =>
    rename_i kv p l1 l2
    intro hlk hnd
    by_cases hk : kv.1 = pid
    · have hrow : kv.2 = row := by
        rw [show kv = (kv.1, kv.2) from rfl, hk, lookup_cons_self] at hlk
        exact Option.some.inj hlk
      have hnotin : ∀ kv' ∈ l1, kv'.1 ≠ pid := by
        intro kv' hkv' he
        rw [List.map_cons, List.nodup_cons] at hnd
        refine hnd.1 ?_
        rw [hk, ← he]
        exact List.mem_map_of_mem _ hkv' 
      rw [List.map_cons, if_pos hk, map_keyReplace_id _ _ _ hnotin]
      obtain ⟨m1, m2, m3, m4, m5⟩ := h1
      refine List.Forall₂.cons ⟨hk ▸ m1, ?_, ?_, ?_, ?_⟩ htail
      · rw [show ((pid, row') : String × PivotedProductRow).2 = row' from rfl,
          h2, ← hrow]
        exact m2
      · rw [show ((pid, row') : String × PivotedProductRow).2 = row' from rfl,
          h3, ← hrow]
        exact m3
      · rw [show ((pid, row') : String × PivotedProductRow).2 = row' from rfl,
          h4, ← hrow]
        exact m4
      · rw [show ((pid, row') : String × PivotedProductRow).2 = row' from rfl,
          h5, ← hrow]
        exact m5
    · have hlk' : l1.lookup pid = some row := by
        rw [show kv = (kv.1, kv.2) from rfl, lookup_cons_ne _ _ _ _ hk] at hlk
        exact hlk
      rw [List.map_cons, if_neg hk]
      refine List.Forall₂.cons h1 (ih hlk' ?_)
      rw [List.map_cons, List.nodup_cons] at hnd
      exact hnd.2

theorem fillPlan_preserves (f : PlanningFilter) (plan : SalesPlanDetail)
    {pm : List (String × PivotedProductRow)} {ps : List MasterProduct}
    (hall : List.Forall₂ (RowMatches f) pm ps)
    (hnd : (pm.map Prod.fst).Nodup) :
    List.Forall₂ (RowMatches f) (fillPlan pm plan) ps := by
  unfold fillPlan
  cases hlk : pm.lookup plan.product_id with
  | none => exact hall
  | some row =>
    simp only
    have hsome : (pm.lookup plan.product_id).isSome := by
      rw [hlk]
      rfl
    unfold mapSet
    rw [if_pos hsome]
    by_cases hmk : (row.months.lookup (monthKeyOf plan.bulan_tahun)).isSome
    · rw [if_pos hmk]
      refine forall₂_replace_row f plan.product_id row
        { row with
            region_kode := plan.region_kode
            months := mapSet row.months (monthKeyOf plan.bulan_tahun)
              (cellFromPlan plan) }
        rfl rfl rfl ?_ hall hlk hnd
      show (mapSet row.months (monthKeyOf plan.bulan_tahun)
          (cellFromPlan plan)).map Prod.fst = row.months.map Prod.fst
      rw [keys_mapSet, if_pos hmk]
    · rw [if_neg hmk]
      exact forall₂_replace_row f plan.product_id row
        { row with region_kode := plan.region_kode }
        rfl rfl rfl rfl hall hlk hnd

theorem foldl_fillPlan_preserves (f : PlanningFilter)
    (plans : List SalesPlanDetail) :
    ∀ {pm : List (String × PivotedProductRow)} {ps : List MasterProduct},
    List.Forall₂ (RowMatches f) pm ps → (ps.map (fun p => p.id)).Nodup →
    List.Forall₂ (RowMatches f) (plans.foldl fillPlan pm) ps := by
  induction plans with
  | nil =>
    intro pm ps h _
    exact h
  | cons plan t ih =>
    intro pm ps h hnd
    rw [List.foldl_cons]
    exact ih (fillPlan_preserves f plan h
      (by rw [keys_eq_of_forall₂ f h]; exact hnd)) hnd

theorem string_append_left_cancel (x y z : String) (h : x ++ y = x ++ z) :
    y = z := by
  have hd := congrArg String.data h
  simp [String.data_append] at hd
  exact congrArg String.mk hd

theorem pad2_inj_le12 : ∀ a, a < 13 → ∀ b, b < 13 → pad2 a = pad2 b → a = b := by
  decide

theorem monthKeys_nodup (f : PlanningFilter) (h12 : f.endMonth ≤ 12) :
    ((monthColumns f).map MonthColumn.key).Nodup := by
  unfold monthColumns
  rw [List.map_map]
  refine List.Nodup.map_on ?_ (List.nodup_range' _ _)
  intro a ha b hb hk
  have ha' : a < 13 := by
    have := (List.mem_range'_1).mp ha
    omega
  have hb' : b < 13 := by
    have := (List.mem_range'_1).mp hb
    omega
  have hk2 : toString f.year ++ "-" ++ pad2 a = toString f.year ++ "-" ++ pad2 b :=
    hk
  exact pad2_inj_le12 a ha' b hb'
    (string_append_left_cancel (toString f.year ++ "-") _ _ hk2)

/-- C2: with distinct product ids and the product list sorted the way
`fetchMasterData` orders it (category, then code), the transform yields
exactly one row per category-matching product (in particular no others), each
row's cells are keyed by exactly the requested month columns (which are
pairwise distinct), one per month of the range, and the row sequence is
sorted by category then product code. -/
theorem pivot_completeness (f : PlanningFilter) (products : List MasterProduct)
    (plans : List SalesPlanDetail)
    (hnodup : (products.map (fun p => p.id)).Nodup)
    (hsorted : products.Pairwise prodLE)
    (hrange : f.startMonth ≤ f.endMonth) (h12 : f.endMonth ≤ 12) :
    (transformToPivotedData f products plans).map (fun r => r.product_id) =
        (filteredProducts f products).map (fun p => p.id) ∧
    (∀ row ∈ transformToPivotedData f products plans,
        row.months.map Prod.fst = (monthColumns f).map MonthColumn.key) ∧
    ((monthColumns f).map MonthColumn.key).Nodup ∧
    (monthColumns f).length = f.endMonth + 1 - f.startMonth ∧
    (transformToPivotedData f products plans).Pairwise rowLE := by
  have hfnd : ((filteredProducts f products).map (fun p => p.id)).Nodup := by
    unfold filteredProducts
    cases f.kategori with
    | none => exact hnodup
    | some k =>
      exact hnodup.sublist ((List.filter_sublist products).map _)
  have hall : List.Forall₂ (RowMatches f)
      (plans.foldl fillPlan (buildProductMap f (filteredProducts f products)))
      (filteredProducts f products) := by
    rw [buildProductMap_eq f _ hfnd]
    exact foldl_fillPlan_preserves f plans (forall₂_init f _) hfnd
  refine ⟨?_, ?_, monthKeys_nodup f h12, ?_, ?_⟩
  · unfold transformToPivotedData
    rw [List.map_map]
    exact sndpid_eq_of_forall₂ f hall
  · intro row hrow
    unfold transformToPivotedData at hrow
    rw [List.mem_map] at hrow
    obtain ⟨kv, hkv, hsnd⟩ := hrow
    obtain ⟨p, hp, hR⟩ := forall₂_mem_left hall kv hkv
    rw [← hsnd]
    exact hR.2.2.2.2
  · unfold monthColumns
    rw [List.length_map, List.length_range']
  · unfold transformToPivotedData
    rw [List.pairwise_map]
    have h1 : (filteredProducts f products).Pairwise prodLE := by
      unfold filteredProducts
      cases f.kategori with
      | none => exact hsorted
      | some k => exact hsorted.filter _
    have h2 : ((filteredProducts f products).map
        (fun p => (p.kategori, p.kode_barang))).Pairwise pairLE := by
      rw [List.pairwise_map]
      exact h1
    rw [← attrs_eq_of_forall₂ f hall, List.pairwise_map] at h2
    exact h2

theorem pivot_completeness_witness :
    (([sampleProduct, sampleProduct2].map (fun p => p.id)).Nodup ∧
      [sampleProduct, sampleProduct2].Pairwise prodLE ∧
      sampleFilter.startMonth ≤ sampleFilter.endMonth ∧
      sampleFilter.endMonth ≤ 12) ∧
    ((transformToPivotedData sampleFilter [sampleProduct, sampleProduct2]
          [samplePlan]).map (fun r => r.product_id) =
        (filteredProducts sampleFilter [sampleProduct, sampleProduct2]).map
          (fun p => p.id) ∧
      (∀ row ∈ transformToPivotedData sampleFilter
          [sampleProduct, sampleProduct2] [samplePlan],
        row.months.map Prod.fst =
          (monthColumns sampleFilter).map MonthColumn.key) ∧
      ((monthColumns sampleFilter).map MonthColumn.key).Nodup ∧
      (monthColumns sampleFilter).length =
        sampleFilter.endMonth + 1 - sampleFilter.startMonth ∧
      (transformToPivotedData sampleFilter [sampleProduct, sampleProduct2]
        [samplePlan]).Pairwise rowLE) :=
  ⟨⟨by decide,
    List.Pairwise.cons
      (fun b hb => by
        rw [List.mem_singleton] at hb
        subst hb
        exact Or.inl (by decide))
      (List.pairwise_singleton _ _),
    by decide, by decide⟩,
    pivot_completeness sampleFilter [sampleProduct, sampleProduct2] [samplePlan]
      (by decide)
      (List.Pairwise.cons
        (fun b hb => by
          rw [List.mem_singleton] at hb
          subst hb
          exact Or.inl (by decide))
        (List.pairwise_singleton _ _))
      (by decide) (by decide)⟩

theorem fillPlan_skip (pm : List (String × PivotedProductRow))
    (plan : SalesPlanDetail) (h : pm.lookup plan.product_id = none) :
    fillPlan pm plan = pm := by
  unfold fillPlan
  simp only [h]

theorem cellAtMap_fillPlan_untouched (pm : List (String × PivotedProductRow))
    (plan : SalesPlanDetail) (pid mk : String)
    (h : ¬(plan.product_id = pid ∧ monthKeyOf plan.bulan_tahun = mk)) :
    cellAtMap (fillPlan pm plan) pid mk = cellAtMap pm pid mk := by
  unfold fillPlan
  cases hlk : pm.lookup plan.product_id with
  | none => rfl
  | some row =>
    simp only
    unfold cellAtMap
    by_cases hp : plan.product_id = pid
    · subst hp
      rw [lookup_mapSet_self, hlk]
      simp only [Option.some_bind]
      have hmk : monthKeyOf plan.bulan_tahun ≠ mk := fun he => h ⟨rfl, he⟩
      by_cases hs : (row.months.lookup (monthKeyOf plan.bulan_tahun)).isSome
      · rw [if_pos hs]
        show (mapSet row.months (monthKeyOf plan.bulan_tahun)
            (cellFromPlan plan)).lookup mk = row.months.lookup mk
        rw [lookup_mapSet_ne _ _ _ _ (Ne.symm hmk)]
      · rw [if_neg hs]
    · rw [lookup_mapSet_ne _ _ _ _ (fun he => hp he.symm)]

theorem cellAtMap_foldl_untouched (plans : List SalesPlanDetail) :
    ∀ (pm : List (String × PivotedProductRow)) (pid mk : String),
    (∀ plan ∈ plans,
      ¬(plan.product_id = pid ∧ monthKeyOf plan.bulan_tahun = mk)) →
    cellAtMap (plans.foldl fillPlan pm) pid mk = cellAtMap pm pid mk := by
  induction plans with
  | nil =>
    intro pm pid mk _
    rfl
  | cons plan t ih =>
    intro pm pid mk h
    rw [List.foldl_cons, ih _ _ _ (fun q hq => h q (by simp [hq])),
      cellAtMap_fillPlan_untouched pm plan pid mk (h plan (by simp))]

theorem cellAtMap_fillPlan_hit (pm : List (String × PivotedProductRow))
    (plan : SalesPlanDetail) (row : PivotedProductRow)
    (hlk : pm.lookup plan.product_id = some row)
    (hmk : (row.months.lookup (monthKeyOf plan.bulan_tahun)).isSome) :
    cellAtMap (fillPlan pm plan) plan.product_id (monthKeyOf plan.bulan_tahun) =
      some (cellFromPlan plan) := by
  unfold fillPlan
  simp only [hlk]
  unfold cellAtMap
  rw [if_pos hmk, lookup_mapSet_self]
  simp only [Option.some_bind]
  show (mapSet row.months (monthKeyOf plan.bulan_tahun)
      (cellFromPlan plan)).lookup (monthKeyOf plan.bulan_tahun) =
    some (cellFromPlan plan)
  exact lookup_mapSet_self _ _ _

theorem cellAtRows_eq_cellAtMap (pm : List (String × PivotedProductRow))
    (hpid : ∀ kv ∈ pm, kv.2.product_id = kv.1) (pid mk : String) :
    cellAtRows (pm.map Prod.snd) pid mk = cellAtMap pm pid mk := by
  induction pm with
  | nil => rfl
  | cons kv t ih =>
    unfold cellAtRows cellAtMap
    by_cases hk : kv.1 = pid
    · rw [List.map_cons,
        List.find?_cons_of_pos _ (by simp [hpid kv (by simp), hk]),
        show kv = (kv.1, kv.2) from rfl, hk, lookup_cons_self]
      simp
    · rw [List.map_cons,
        List.find?_cons_of_neg _ (by simp [hpid kv (by simp), hk]),
        show kv = (kv.1, kv.2) from rfl, lookup_cons_ne _ _ _ _ hk]
      have h2 := ih (fun kv' h' => hpid kv' (by simp [h']))
      unfold cellAtRows cellAtMap at h2
      exact h2

theorem lookup_init_map (f : PlanningFilter) (ps : List MasterProduct)
    (hnd : (ps.map (fun p => p.id)).Nodup) (p : MasterProduct) (hp : p ∈ ps) :
    (ps.map (fun q => (q.id, initRow f q))).lookup p.id = some (initRow f p) := by
  induction ps with
  | nil => cases hp
  | cons q t ih =>
    rw [List.map_cons, List.nodup_cons] at hnd
    rcases List.mem_cons.mp hp with he | ht
    · subst he
      rw [List.map_cons, lookup_cons_self]
    · have hq : q.id ≠ p.id := by
        intro heq
        exact hnd.1 (heq ▸ List.mem_map_of_mem _ ht)
      rw [List.map_cons, lookup_cons_ne _ _ _ _ hq]
      exact ih hnd.2 ht

theorem lookup_months_init (cols : List MonthColumn)
    (hnd : (cols.map MonthColumn.key).Nodup) (mc : MonthColumn) (hmc : mc ∈ cols) :
    (cols.map (fun c => (c.key, createEmptyMonthData c.date c.label))).lookup
      mc.key = some (createEmptyMonthData mc.date mc.label) := by
  induction cols with
  | nil => cases hmc
  | cons c t ih =>
    rw [List.map_cons, List.nodup_cons] at hnd
    rcases List.mem_cons.mp hmc with he | ht
    · subst he
      rw [List.map_cons, lookup_cons_self]
    · have hne : c.key ≠ mc.key := by
        intro heq
        exact hnd.1 (heq ▸ List.mem_map_of_mem _ ht)
      rw [List.map_cons, lookup_cons_ne _ _ _ _ hne]
      exact ih hnd.2 ht

/-- C3: with distinct plan keys (guaranteed by the store's unique
(product, region, month) constraint and single-region fetch), every fetched
record whose product survives the category filter and whose month is in range
lands exactly at its (product, month) cell, carrying the record's seven
values, its real id, and modified = false; every in-range position with no
record holds the zero cell with a null id; and a record whose product is not
in the candidate set is silently dropped — the transform output is as if the
record were absent. -/
theorem pivot_correctness (f : PlanningFilter) (products : List MasterProduct)
    (plans : List SalesPlanDetail)
    (hnodup : (products.map (fun p => p.id)).Nodup)
    (h12 : f.endMonth ≤ 12)
    (hkeys : (plans.map
      (fun r => (r.product_id, monthKeyOf r.bulan_tahun))).Nodup) :
    (∀ plan ∈ plans,
      plan.product_id ∈ (filteredProducts f products).map (fun p => p.id) →
      monthKeyOf plan.bulan_tahun ∈ (monthColumns f).map MonthColumn.key →
      cellAtRows (transformToPivotedData f products plans) plan.product_id
        (monthKeyOf plan.bulan_tahun) = some (cellFromPlan plan)) ∧
    (∀ p ∈ filteredProducts f products, ∀ mc ∈ monthColumns f,
      (∀ plan ∈ plans, ¬(plan.product_id = p.id ∧
        monthKeyOf plan.bulan_tahun = mc.key)) →
      cellAtRows (transformToPivotedData f products plans) p.id mc.key =
        some (createEmptyMonthData mc.date mc.label)) ∧
    (∀ (l1 l2 : List SalesPlanDetail) (r : SalesPlanDetail),
      plans = l1 ++ r :: l2 →
      r.product_id ∉ (filteredProducts f products).map (fun p => p.id) →
      transformToPivotedData f products plans =
        transformToPivotedData f products (l1 ++ l2)) := by
  have hfnd : ((filteredProducts f products).map (fun p => p.id)).Nodup := by
    unfold filteredProducts
    cases f.kategori with
    | none => exact hnodup
    | some k =>
      exact hnodup.sublist ((List.filter_sublist products).map _)
  have hpm0 : buildProductMap f (filteredProducts f products) =
      (filteredProducts f products).map (fun p => (p.id, initRow f p)) :=
    buildProductMap_eq f _ hfnd
  have hallOf : ∀ l : List SalesPlanDetail,
      List.Forall₂ (RowMatches f)
        (l.foldl fillPlan (buildProductMap f (filteredProducts f products)))
        (filteredProducts f products) := fun l => by
    rw [hpm0]
    exact foldl_fillPlan_preserves f l (forall₂_init f _) hfnd
  have hpidOf : ∀ l : List SalesPlanDetail,
      ∀ kv ∈ l.foldl fillPlan (buildProductMap f (filteredProducts f products)),
      kv.2.product_id = kv.1 := by
    intro l kv hkv
    obtain ⟨p, _, hR⟩ := forall₂_mem_left (hallOf l) kv hkv
    exact hR.2.1.trans hR.1.symm
  refine ⟨?_, ?_, ?_⟩
  · intro plan hplan hpmem hmmem
    obtain ⟨l1, l2, rfl⟩ := List.append_of_mem hplan
    have hsplit : (l1 ++ plan :: l2).foldl fillPlan
        (buildProductMap f (filteredProducts f products)) =
        l2.foldl fillPlan (fillPlan (l1.foldl fillPlan
          (buildProductMap f (filteredProducts f products))) plan) := by
      rw [List.foldl_append, List.foldl_cons]
    have hall1 := hallOf l1
    have hsome : ((l1.foldl fillPlan
        (buildProductMap f (filteredProducts f products))).lookup
          plan.product_id).isSome := by
      rw [lookup_isSome_iff_mem_keys, keys_eq_of_forall₂ f hall1]
      exact hpmem
    obtain ⟨row, hrow⟩ := Option.isSome_iff_exists.mp hsome
    have hmem_row := mem_of_lookup_eq_some _ _ _ hrow
    obtain ⟨p, _, hR⟩ := forall₂_mem_left hall1 _ hmem_row
    have hmksome : (row.months.lookup (monthKeyOf plan.bulan_tahun)).isSome := by
      rw [lookup_isSome_iff_mem_keys]
      have hmm : row.months.map Prod.fst =
          (monthColumns f).map MonthColumn.key := hR.2.2.2.2
      rw [hmm]
      exact hmmem
    have hnotin : ∀ q ∈ l2, ¬(q.product_id = plan.product_id ∧
        monthKeyOf q.bulan_tahun = monthKeyOf plan.bulan_tahun) := by
      rintro q hq ⟨h1, h2⟩
      rw [List.map_append, List.map_cons] at hkeys
      have hnd3 := hkeys.of_append_right
      rw [List.nodup_cons] at hnd3
      refine hnd3.1 ?_
      rw [← h1, ← h2]
      exact List.mem_map_of_mem _ hq
    unfold transformToPivotedData
    rw [cellAtRows_eq_cellAtMap _ (hpidOf (l1 ++ plan :: l2)), hsplit,
      cellAtMap_foldl_untouched l2 _ _ _ hnotin,
      cellAtMap_fillPlan_hit _ plan row hrow hmksome]
  · intro p hp mc hmc hnone
    unfold transformToPivotedData
    rw [cellAtRows_eq_cellAtMap _ (hpidOf plans),
      cellAtMap_foldl_untouched plans _ _ _ hnone, hpm0]
    unfold cellAtMap
    rw [lookup_init_map f _ hfnd p hp]
    simp only [Option.some_bind]
    show ((monthColumns f).map
        (fun c => (c.key, createEmptyMonthData c.date c.label))).lookup mc.key =
      some (createEmptyMonthData mc.date mc.label)
    exact lookup_months_init _ (monthKeys_nodup f h12) mc hmc
  · intro l1 l2 r hplans hnot
    subst hplans
    unfold transformToPivotedData
    rw [List.foldl_append, List.foldl_cons, List.foldl_append]
    rw [fillPlan_skip _ r ?_]
    apply lookup_eq_none_of_not_mem
    rw [keys_eq_of_forall₂ f (hallOf l1)]
    exact hnot

theorem pivot_correctness_witness :
    (([sampleProduct, sampleProduct2].map (fun p => p.id)).Nodup ∧
      sampleFilter.endMonth ≤ 12 ∧
      ([samplePlan].map
        (fun r => (r.product_id, monthKeyOf r.bulan_tahun))).Nodup) ∧
    cellAtRows (transformToPivotedData sampleFilter
        [sampleProduct, sampleProduct2] [samplePlan]) "P1"
      (monthKeyOf samplePlan.bulan_tahun) = some (cellFromPlan samplePlan) ∧
    cellAtRows (transformToPivotedData sampleFilter
        [sampleProduct, sampleProduct2] [samplePlan]) "P2" "2026-02" =
      some (createEmptyMonthData "2026-02-01" "Feb 2026") :=
  ⟨⟨by decide, by decide, by decide⟩,
    (pivot_correctness sampleFilter [sampleProduct, sampleProduct2] [samplePlan]
        (by decide) (by decide) (by decide)).1 samplePlan (by decide) (by decide)
      (by decide),
    (pivot_correctness sampleFilter [sampleProduct, sampleProduct2] [samplePlan]
        (by decide) (by decide) (by decide)).2.1 sampleProduct2 (by decide)
      { key := "2026-02", label := "Feb 2026", date := "2026-02-01" }
      (by decide) (by decide)⟩
